import Mathlib

/-!
# Verification of the ingestion & retrieval pipeline of `deep-learning-tp2`

Shallow embedding of the core pipeline modules (`src/data_loading.py`,
`src/text_processing.py`, `src/vector_store.py`, `src/retriever.py`,
`src/query_utils.py`) and proofs of the specified properties.

Python dictionaries with string keys are modelled as association lists
(`Metadata`); a dictionary assignment `d[k] = v` replaces the value of the
first entry with key `k` (or appends a new entry), `d.pop(k, None)` removes
all entries with key `k`, `d.update(other)` performs assignment for each
entry of `other` in order, and `d.get(k)` returns the value of the first
entry with key `k`.
-/

namespace DLTP2

/-- JSON-serializable metadata values occurring in the repository
(strings, integers, booleans). -/
inductive Value where
  | str (s : String)
  | int (n : Int)
  | bool (b : Bool)
  deriving DecidableEq, Repr

/-- A Python `dict` with string keys, modelled as an association list. -/
def Metadata : Type := List (String × Value)

instance : DecidableEq Metadata := by unfold Metadata; infer_instance

instance : Append Metadata := by unfold Metadata; infer_instance

/-- Python `d.get(k)`: value of the first entry with key `k`. -/
def getV (m : Metadata) (k : String) : Option Value :=
  match m with
  | [] => none
  | (k', v) :: rest => if k' = k then some v else getV rest k

/-- Python `d[k] = v`: replace the first entry with key `k`, else append. -/
def setV (m : Metadata) (k : String) (v : Value) : Metadata :=
  match m with
  | [] => [(k, v)]
  | (k', v') :: rest => if k' = k then (k', v) :: rest else (k', v') :: setV rest k v

/-- Python `d.pop(k, None)`: remove the entries with key `k`. -/
def popKey (m : Metadata) (k : String) : Metadata :=
  match m with
  | [] => []
  | (k', v') :: rest => if k' = k then popKey rest k else (k', v') :: popKey rest k

/-- Python `d.update(other)`: assign every entry of `other` in order. -/
def mUpdate (m other : Metadata) : Metadata :=
  match other with
  | [] => m
  | (k, v) :: rest => mUpdate (setV m k v) rest

/-- Python `d.get(k, default)` specialised to string values: any non-string
stored value behaves as "not the looked-up string" in comparisons. -/
def getStrD (m : Metadata) (k : String) (dflt : String) : String :=
  match getV m k with
  | some (.str s) => s
  | _ => dflt

theorem getV_setV_self (m : Metadata) (k : String) (v : Value) :
    getV (setV m k v) k = some v := by
  induction m with
  | nil => simp [setV, getV]
  | cons p rest ih =>
    obtain ⟨k', v'⟩ := p
    by_cases h : k' = k <;> simp [setV, getV, h, ih]

theorem getV_setV_ne (m : Metadata) (k k' : String) (v : Value) (h : k' ≠ k) :
    getV (setV m k' v) k = getV m k := by
  induction m with
  | nil => simp [setV, getV, h]
  | cons p rest ih =>
    obtain ⟨k₀, v₀⟩ := p
    by_cases h0 : k₀ = k'
    · subst h0
      simp [setV, getV, h]
    · simp only [setV, if_neg h0, getV]
      by_cases h1 : k₀ = k <;> simp [h1, ih]

theorem getV_popKey_self (m : Metadata) (k : String) :
    getV (popKey m k) k = none := by
  induction m with
  | nil => simp [popKey, getV]
  | cons p rest ih =>
    obtain ⟨k', v'⟩ := p
    by_cases h : k' = k <;> simp [popKey, getV, h, ih]

theorem getV_popKey_ne (m : Metadata) (k k' : String) (h : k' ≠ k) :
    getV (popKey m k') k = getV m k := by
  induction m with
  | nil => simp [popKey]
  | cons p rest ih =>
    obtain ⟨k₀, v₀⟩ := p
    by_cases h0 : k₀ = k'
    · subst h0
      simp [popKey, getV, h, Ne.symm h, ih]
    · simp only [popKey, if_neg h0, getV]
      by_cases h1 : k₀ = k <;> simp [h1, ih]

/-! ## Character and string utilities

Character-level model of the Python string primitives used by the repository,
restricted to the ASCII plus Spanish (Latin) repertoire the repository
processes; characters outside the modelled tables are left unchanged. -/

/-- Python whitespace characters matched by the regex class `\s`
(ASCII subset; the repository never feeds non-ASCII whitespace). -/
def isSpacePy (c : Char) : Bool :=
  c = ' ' || c = '\t' || c = '\n' || c = '\x0d' || c = '\x0b' || c = '\x0c'

/-- Lower-case table for the accented characters used in the repository
(Spanish repertoire); model of `str.lower` beyond ASCII. -/
def accentLowerTable : List (Char × Char) :=
  [('Á', 'á'), ('É', 'é'), ('Í', 'í'), ('Ó', 'ó'), ('Ú', 'ú'), ('Ü', 'ü'), ('Ñ', 'ñ')]

/-- Model of Python `str.lower` applied to one character: ASCII letters and
the Spanish accented letters are mapped to lower case, anything else is
unchanged. -/
def pythonLower (c : Char) : Char :=
  if 'A' ≤ c ∧ c ≤ 'Z' then Char.ofNat (c.toNat + 32)
  else match accentLowerTable.lookup c with
    | some l => l
    | none => c

/-- Python `str.lower` on a character list. -/
def lowerL (cs : List Char) : List Char := cs.map pythonLower

/-- Python ASCII `str.upper` on one character (used for `group(1).upper()`
on a captured letter or digit). -/
def upperChar (c : Char) : Char :=
  if 'a' ≤ c ∧ c ≤ 'z' then Char.ofNat (c.toNat - 32) else c

/-- `needle` occurs as a contiguous sublist at the start of `hay`. -/
def startsWithL : List Char → List Char → Bool
  | [], _ => true
  | _ :: _, [] => false
  | n :: ns, h :: hs => n = h && startsWithL ns hs

/-- Python `needle in hay` (substring containment). -/
def containsSub (hay needle : List Char) : Bool :=
  match hay with
  | [] => needle.isEmpty
  | _ :: rest => startsWithL needle hay || containsSub rest needle

/-- Python `any(word in hay for word in needles)`. -/
def containsAny (hay : List Char) (needles : List String) : Bool :=
  needles.any (fun n => containsSub hay n.data)

/-- `int(...)` on a captured digit string. -/
def digitsToNat (ds : List Char) : Nat :=
  ds.foldl (fun n c => n * 10 + (c.toNat - '0'.toNat)) 0

/-- Python `'_'.replace` of underscores by spaces (the repository only ever
replaces the single character `'_'` by `' '`). -/
def underscoreToSpace (s : String) : String :=
  String.mk (s.data.map (fun c => if c = '_' then ' ' else c))

/-- Python `str.strip()` (trim whitespace at both ends). -/
def stripWs (cs : List Char) : List Char :=
  ((cs.dropWhile isSpacePy).reverse.dropWhile isSpacePy).reverse

/-- Python `re.sub(r'\s+', ' ', s)`: collapse every whitespace run to a
single space (structural recursion on a fuel that starts at the length of
the list and never runs out, since each step consumes at least one
character). -/
def collapseWsAux : Nat → List Char → List Char
  | _, [] => []
  | 0, _ => []
  | f + 1, c :: rest =>
    if isSpacePy c then ' ' :: collapseWsAux f (rest.dropWhile isSpacePy)
    else c :: collapseWsAux f rest

/-- Python `re.sub(r'\s+', ' ', s)`. -/
def collapseWs (cs : List Char) : List Char := collapseWsAux cs.length cs

/-- Python `s.rsplit('.', 1)[0]`: drop the last `.`-separated component
(identity when there is no dot). -/
def dropLastDotComponent (cs : List Char) : List Char :=
  if containsSub cs ['.'] then
    (cs.reverse.dropWhile (fun c => c ≠ '.')).drop 1 |>.reverse
  else cs

/-! ## A small regular-expression engine

Backtracking matcher with Python `re` semantics for the constructs the
repository uses: literals, character classes, greedy `?`/`*`/`+`, one
capture group, alternation, and the `^`/`$` anchors.  `reRun` returns the
candidate matches in Python's preference order (greedy first), so the head
of the list is the match `re` would produce.  The `fuel` argument bounds
`*`-unfolding; every starred body of the transcribed patterns consumes at
least one character, so `fuel = length + 1` makes the bound unreachable. -/

/-- Regular-expression abstract syntax. -/
inductive RE where
  | eps
  | chr (c : Char)
  | cls (p : Char → Bool)
  | seq (a b : RE)
  | alt (a b : RE)
  | star (r : RE)
  | opt (r : RE)
  | group (r : RE)
  | bol
  | eol

/-- `a+` as `a a*`. -/
def RE.plus (r : RE) : RE := .seq r (.star r)

/-- Literal string. -/
def RE.lit (s : String) : RE :=
  s.data.foldr (fun c r => RE.seq (.chr c) r) .eps

/-- Case-insensitive literal string (for `re.IGNORECASE`; the transcribed
patterns only use ASCII letters there). -/
def RE.litCI (s : String) : RE :=
  s.data.foldr (fun c r => RE.seq (.cls (fun x => pythonLower x = pythonLower c)) r) .eps

/-- All candidate matches of `r` against `s`, each as the remaining suffix
paired with the (last) capture, in Python preference order.  `total` is the
length of the full subject string (to decide `^`).  The recursion is
structural on `fuel`: every step descends into the pattern or, for `*`,
unfolds one iteration whose body consumed at least one character, so the
depth is bounded by the pattern size plus the subject length and the
callers pass a fuel that is never exhausted. -/
def reRun : Nat → RE → Nat → List Char → Option (List Char) →
    List (List Char × Option (List Char))
  | 0, _, _, _, _ => []
  | _ + 1, .eps, _, s, cap => [(s, cap)]
  | _ + 1, .chr c, _, s, cap =>
    match s with
    | [] => []
    | x :: rest => if x = c then [(rest, cap)] else []
  | _ + 1, .cls p, _, s, cap =>
    match s with
    | [] => []
    | x :: rest => if p x then [(rest, cap)] else []
  | f + 1, .seq a b, total, s, cap =>
    (reRun f a total s cap).flatMap (fun sc => reRun f b total sc.1 sc.2)
  | f + 1, .alt a b, total, s, cap =>
    reRun f a total s cap ++ reRun f b total s cap
  | f + 1, .star r0, total, s, cap =>
    ((reRun f r0 total s cap).flatMap (fun sc =>
      if sc.1.length < s.length then reRun f (.star r0) total sc.1 sc.2
      else [sc])) ++ [(s, cap)]
  | f + 1, .opt r0, total, s, cap => reRun f r0 total s cap ++ [(s, cap)]
  | f + 1, .group r0, total, s, cap =>
    (reRun f r0 total s cap).map (fun sc => (sc.1, some (s.take (s.length - sc.1.length))))
  | _ + 1, .bol, total, s, cap => if s.length = total then [(s, cap)] else []
  | _ + 1, .eol, _, s, cap => if s.length = 0 then [(s, cap)] else []

/-- Fuel that the matcher cannot exhaust on the transcribed patterns. -/
def reFuel (total : Nat) : Nat := 500 + 10 * total

/-- `re.search(r, s)` at a fixed start suffix: first candidate there. -/
def reFirst (r : RE) (total : Nat) (s : List Char) : Option (Option (List Char)) :=
  match (reRun (reFuel total) r total s none).head? with
  | some (_, cap) => some cap
  | none => none

/-- `re.search(r, s)`: leftmost starting position wins; returns `some cap`
(with `cap` the text of group 1, if any) when the pattern occurs. -/
def reSearchAux (r : RE) (total : Nat) (s : List Char) : Option (Option (List Char)) :=
  match reFirst r total s with
  | some cap => some cap
  | none =>
    match s with
    | [] => none
    | _ :: rest => reSearchAux r total rest

/-- `re.search` on a character list. -/
def reSearch (r : RE) (s : List Char) : Option (Option (List Char)) :=
  reSearchAux r s.length s

/-- `re.match` (anchored at the start of the string). -/
def reMatch (r : RE) (s : List Char) : Option (Option (List Char)) :=
  reFirst r s.length s

/-- The suffix left after an anchored match (for `re.sub('^...', '', s)`). -/
def reMatchRest (r : RE) (s : List Char) : Option (List Char) :=
  match (reRun (reFuel s.length) r s.length s none).head? with
  | some (rest, _) => some rest
  | none => none

/-- The regex class `\d`. -/
def isDigitC (c : Char) : Bool := '0' ≤ c && c ≤ '9'

/-- The regex class `[_\s]`. -/
def isSepC (c : Char) : Bool := c = '_' || isSpacePy c

/-- The regex class `[-_\s]`. -/
def isDashSepC (c : Char) : Bool := c = '-' || c = '_' || isSpacePy c

/-- The regex `.` (any character except a newline). -/
def isDotC (c : Char) : Bool := c ≠ '\n'

/-- The regex class `[12]`. -/
def isOneTwo (c : Char) : Bool := c = '1' || c = '2'

/-! ## `src/data_loading.py` — `DocumentLoader`

Transcription of every regular expression of the academic-metadata
extractor; each definition names the Python pattern it embeds. -/

/-- `(20\d{2})` (year detection in `_extract_exam_metadata`). -/
def reYear : RE :=
  .group (.seq (.chr '2') (.seq (.chr '0') (.seq (.cls isDigitC) (.cls isDigitC))))

/-- `q[_\s]?([12])` (cuatrimestre pattern 1). -/
def reCuatQ : RE :=
  .seq (.chr 'q') (.seq (.opt (.cls isSepC)) (.group (.cls isOneTwo)))

/-- `cuat[rimestre]*[_\s]?([12])` (cuatrimestre pattern 2). -/
def reCuatCuat : RE :=
  .seq (.lit "cuat")
    (.seq (.star (.cls (fun c => "rimestre".data.contains c)))
      (.seq (.opt (.cls isSepC)) (.group (.cls isOneTwo))))

/-- `c([12])` (cuatrimestre pattern 3). -/
def reCuatC : RE := .seq (.chr 'c') (.group (.cls isOneTwo))

/-- `(?:^|[_\s])([12])[_\s]?p(?:[_\s]|$)` (parcial pattern 1). -/
def reParcial1 : RE :=
  .seq (.alt .bol (.cls isSepC))
    (.seq (.group (.cls isOneTwo))
      (.seq (.opt (.cls isSepC)) (.seq (.chr 'p') (.alt (.cls isSepC) .eol))))

/-- `p[_\s]?([12])(?:[_\s]|$)` (parcial pattern 2). -/
def reParcial2 : RE :=
  .seq (.chr 'p')
    (.seq (.opt (.cls isSepC)) (.seq (.group (.cls isOneTwo)) (.alt (.cls isSepC) .eol)))

/-- `parcial[_\s]?([12])` (parcial pattern 3). -/
def reParcial3 : RE :=
  .seq (.lit "parcial") (.seq (.opt (.cls isSepC)) (.group (.cls isOneTwo)))

/-- `([12])[erdo]*[_\s]?parcial` (parcial pattern 4). -/
def reParcial4 : RE :=
  .seq (.group (.cls isOneTwo))
    (.seq (.star (.cls (fun c => "erdo".data.contains c)))
      (.seq (.opt (.cls isSepC)) (.lit "parcial")))

/-- `tema[_\s]?([A-Da-d1-4])` (tema pattern 1). -/
def reTema1 : RE :=
  .seq (.lit "tema")
    (.seq (.opt (.cls isSepC))
      (.group (.cls (fun c =>
        ('A' ≤ c && c ≤ 'D') || ('a' ≤ c && c ≤ 'd') || ('1' ≤ c && c ≤ '4')))))

/-- `[_\s]([A-D])(?:\.|$)` (tema pattern 2). -/
def reTema2 : RE :=
  .seq (.cls isSepC)
    (.seq (.group (.cls (fun c => 'A' ≤ c && c ≤ 'D'))) (.alt (.chr '.') .eol))

/-- `tema[_\s]?([1-4])` (tema pattern 3). -/
def reTema3 : RE :=
  .seq (.lit "tema")
    (.seq (.opt (.cls isSepC)) (.group (.cls (fun c => '1' ≤ c && c ≤ '4'))))

/-- `unidad[_\s]?\d+` (`_is_unit_folder` pattern 1). -/
def reUnitU : RE :=
  .seq (.lit "unidad") (.seq (.opt (.cls isSepC)) (RE.plus (.cls isDigitC)))

/-- `tema[_\s]?\d+` (`_is_unit_folder` pattern 2). -/
def reUnitT : RE :=
  .seq (.lit "tema") (.seq (.opt (.cls isSepC)) (RE.plus (.cls isDigitC)))

/-- `capitulo[_\s]?\d+` (`_is_unit_folder` pattern 3). -/
def reUnitC : RE :=
  .seq (.lit "capitulo") (.seq (.opt (.cls isSepC)) (RE.plus (.cls isDigitC)))

/-- `modulo[_\s]?\d+` (`_is_unit_folder` pattern 4). -/
def reUnitM : RE :=
  .seq (.lit "modulo") (.seq (.opt (.cls isSepC)) (RE.plus (.cls isDigitC)))

/-- `^\d+[_\s]` (`_is_unit_folder` leading-number test, used with `re.match`). -/
def reLeadNum : RE := .seq .bol (.seq (RE.plus (.cls isDigitC)) (.cls isSepC))

/-- `^(\d+)\s*[-_\s]` (`_extract_unit_from_filename` pattern 1, `re.match`). -/
def reLeadNumCap : RE :=
  .seq .bol
    (.seq (.group (RE.plus (.cls isDigitC)))
      (.seq (.star (.cls isSpacePy)) (.cls isDashSepC)))

/-- `unidad[_\s]?(\d+)` (`_extract_unit_from_filename` pattern 2a). -/
def reUFF1 : RE :=
  .seq (.lit "unidad") (.seq (.opt (.cls isSepC)) (.group (RE.plus (.cls isDigitC))))

/-- `tema[_\s]?(\d+)` (`_extract_unit_from_filename` pattern 2b). -/
def reUFF2 : RE :=
  .seq (.lit "tema") (.seq (.opt (.cls isSepC)) (.group (RE.plus (.cls isDigitC))))

/-- `capitulo[_\s]?(\d+)` (`_extract_unit_from_filename` pattern 2c). -/
def reUFF3 : RE :=
  .seq (.lit "capitulo") (.seq (.opt (.cls isSepC)) (.group (RE.plus (.cls isDigitC))))

/-- `cap[_\s]?(\d+)` (`_extract_unit_from_filename` pattern 2d). -/
def reUFF4 : RE :=
  .seq (.lit "cap") (.seq (.opt (.cls isSepC)) (.group (RE.plus (.cls isDigitC))))

/-- `u(\d+)[_\s]` (`_extract_unit_from_filename` pattern 2e). -/
def reUFF5 : RE :=
  .seq (.chr 'u') (.seq (.group (RE.plus (.cls isDigitC))) (.cls isSepC))

/-- `Unidad (\d+)` (search over the recovered `"Unidad NN"` string). -/
def reUnidadCap : RE := .seq (.lit "Unidad ") (.group (RE.plus (.cls isDigitC)))

/-- `^\d+\s*[-_\s]+(.+)$` (`_extract_unit_topic_from_filename` pattern 1). -/
def reTopic1 : RE :=
  .seq .bol
    (.seq (RE.plus (.cls isDigitC))
      (.seq (.star (.cls isSpacePy))
        (.seq (RE.plus (.cls isDashSepC))
          (.seq (.group (RE.plus (.cls isDotC))) .eol))))

/-- `^(?:unidad|tema|capitulo)[_\s]?\d+\s*[-_\s]+(.+)$` with `re.IGNORECASE`
(`_extract_unit_topic_from_filename` pattern 2). -/
def reTopic2 : RE :=
  .seq .bol
    (.seq (.alt (RE.litCI "unidad") (.alt (RE.litCI "tema") (RE.litCI "capitulo")))
      (.seq (.opt (.cls isSepC))
        (.seq (RE.plus (.cls isDigitC))
          (.seq (.star (.cls isSpacePy))
            (.seq (RE.plus (.cls isDashSepC))
              (.seq (.group (RE.plus (.cls isDotC))) .eol))))))

/-- `[Uu]nidad[_\s]?(\d+)` (`_extract_unit_number`). -/
def reUnitNum : RE :=
  .seq (.cls (fun c => c = 'U' || c = 'u'))
    (.seq (.lit "nidad") (.seq (.opt (.cls isSepC)) (.group (RE.plus (.cls isDigitC)))))

/-- `^[Uu]nidad[_\s]?\d+[_\s]?` (prefix removed by `_extract_unit_topic`). -/
def reUnidadLead : RE :=
  .seq .bol
    (.seq (.cls (fun c => c = 'U' || c = 'u'))
      (.seq (.lit "nidad")
        (.seq (.opt (.cls isSepC)) (.seq (RE.plus (.cls isDigitC)) (.opt (.cls isSepC))))))

/-- The exam-like values of `tipo_documento`. -/
def examKinds : List String := ["examenes", "parciales", "finales"]

/-- `_extract_exam_metadata`: year and cuatrimestre detection (the first
half of the function, building the fresh metadata dict). -/
def examYearCuat (cs csl : List Char) : Metadata :=
  let m : Metadata := []
  let m :=
    match reSearch reYear cs with
    | some cap => setV m "año" (.int (Int.ofNat (digitsToNat (cap.getD []))))
    | none => m
  match [reCuatQ, reCuatCuat, reCuatC].findSome?
      (fun r => match reSearch r csl with
        | some cap => some (digitsToNat (cap.getD []))
        | none => none) with
  | some n => setV m "cuatrimestre" (.int (Int.ofNat n))
  | none => m

/-- `_extract_exam_metadata`: the ordered parcial-number regex chain with
its default of `1`. -/
def parcialNum (csl : List Char) : Nat :=
  match reSearch reParcial1 csl with
  | some cap => digitsToNat (cap.getD [])
  | none =>
    match reSearch reParcial2 csl with
    | some cap => digitsToNat (cap.getD [])
    | none =>
      match reSearch reParcial3 csl with
      | some cap => digitsToNat (cap.getD [])
      | none =>
        match reSearch reParcial4 csl with
        | some cap => digitsToNat (cap.getD [])
        | none => 1

/-- `_extract_exam_metadata`: the `tipo_examen` branch. -/
def examTipo (m : Metadata) (csl : List Char) : Metadata :=
  if containsAny csl ["recup", "recuperatorio", "recuperacion"] then
    setV m "tipo_examen" (.str "recuperatorio")
  else if containsAny csl ["final"] then
    setV m "tipo_examen" (.str "final")
  else if containsSub csl "parcial".data || containsSub csl "p".data then
    let pn := parcialNum csl
    if pn = 1 then setV m "tipo_examen" (.str "primer_parcial")
    else if pn = 2 then setV m "tipo_examen" (.str "segundo_parcial")
    else m
  else m

/-- `_extract_exam_metadata`: the `tema` detection loop (searched on the
original-case filename). -/
def examTema (m : Metadata) (cs : List Char) : Metadata :=
  match [reTema1, reTema2, reTema3].findSome?
      (fun r => match reSearch r cs with
        | some cap => some (String.mk ((cap.getD []).map upperChar))
        | none => none) with
  | some t => setV m "tema" (.str t)
  | none => m

/-- `DocumentLoader._extract_exam_metadata`. -/
def extractExamMetadata (filename : String) : Metadata :=
  let cs := filename.data
  let csl := lowerL cs
  examTema (examTipo (examYearCuat cs csl) csl) cs

/-- The synonym map of `_normalize_tipo_documento`. -/
def tipoMapping : List (String × String) :=
  [("apunte", "apuntes"), ("apuntes", "apuntes"), ("teorica", "apuntes"),
   ("teoricas", "apuntes"), ("teoria", "apuntes"), ("ejercicio", "ejercicios"),
   ("ejercicios", "ejercicios"), ("practica", "ejercicios"), ("practicas", "ejercicios"),
   ("guia", "guias"), ("guias", "guias"), ("examen", "examenes"),
   ("examenes", "examenes"), ("parcial", "parciales"), ("parciales", "parciales"),
   ("final", "finales"), ("finales", "finales"), ("laboratorio", "laboratorios"),
   ("laboratorios", "laboratorios"), ("proyecto", "proyectos"), ("proyectos", "proyectos")]

/-- `DocumentLoader._normalize_tipo_documento`. -/
def normalizeTipoDocumento (tipoRaw : String) : String :=
  match tipoMapping.lookup (String.mk (lowerL tipoRaw.data)) with
  | some t => t
  | none => tipoRaw

/-- `DocumentLoader._is_unit_folder`. -/
def isUnitFolder (folderName : String) : Bool :=
  let fl := lowerL folderName.data
  if [reUnitU, reUnitT, reUnitC, reUnitM].any (fun r => (reSearch r fl).isSome) then true
  else (reMatch reLeadNum folderName.data).isSome

/-- `DocumentLoader._extract_unit_number`. -/
def extractUnitNumber (unitName : String) : Option Int :=
  match reSearch reUnitNum unitName.data with
  | some cap => some (Int.ofNat (digitsToNat (cap.getD [])))
  | none => none

/-- `DocumentLoader._extract_unit_topic`. -/
def extractUnitTopic (unitName : String) : String :=
  let cleaned :=
    match reMatchRest reUnidadLead unitName.data with
    | some rest => rest
    | none => unitName.data
  underscoreToSpace (String.mk cleaned)

/-- `DocumentLoader._extract_unit_from_filename`. -/
def extractUnitFromFilename (filename : String) : Option String :=
  match reMatch reLeadNumCap filename.data with
  | some cap => some ("Unidad " ++ String.mk (cap.getD []))
  | none =>
    let fl := lowerL filename.data
    match [reUFF1, reUFF2, reUFF3, reUFF4, reUFF5].findSome?
        (fun r => match reSearch r fl with
          | some cap => some (cap.getD [])
          | none => none) with
    | some d => some ("Unidad " ++ String.mk d)
    | none => none

/-- `DocumentLoader._extract_unit_topic_from_filename`. -/
def extractUnitTopicFromFilename (filename : String) : Option String :=
  let base := dropLastDotComponent filename.data
  match reMatch reTopic1 base with
  | some cap => some (String.mk (collapseWs (stripWs (cap.getD []))))
  | none =>
    match reMatch reTopic2 base with
    | some cap => some (String.mk (collapseWs (stripWs (cap.getD []))))
    | none => none

/-- The keyword map of `_detect_materia_fallback` (insertion order). -/
def materiaKeywords : List (String × String) :=
  [("probabilidad", "Probabilidad y estadística"),
   ("estadistica", "Probabilidad y estadística"),
   ("sia", "Sistemas de Inteligencia Artificial"),
   ("inteligencia", "Sistemas de Inteligencia Artificial"),
   ("ai", "Sistemas de Inteligencia Artificial"),
   ("machine learning", "Sistemas de Inteligencia Artificial")]

/-- `DocumentLoader._detect_materia_fallback`. -/
def detectMateriaFallback (fileName parentDir : String) : String :=
  let fl := lowerL fileName.data
  let pl := lowerL parentDir.data
  match materiaKeywords.findSome?
      (fun kv => if containsSub fl kv.1.data || containsSub pl kv.1.data
        then some kv.2 else none) with
  | some m => m
  | none => "No especificada"

/-- `DocumentLoader._detect_tipo_documento_fallback`. -/
def detectTipoDocumentoFallback (fileName : String) : String :=
  let fl := lowerL fileName.data
  if containsSub fl "apunte".data then "apuntes"
  else if containsSub fl "guia".data then "guias"
  else if containsSub fl "examen".data then "examenes"
  else if containsSub fl "parcial".data then "parciales"
  else if containsSub fl "final".data then "finales"
  else if containsSub fl "ejercicio".data || containsSub fl "practica".data then "ejercicios"
  else "documento"

/-- First index of `x` (Python `list.index`, as an `Option`). -/
def firstIdx (x : String) : List String → Option Nat
  | [] => none
  | y :: rest => if y = x then some 0 else (firstIdx x rest).map (· + 1)

/-- The `docs`/`data`/last-4-segments anchor search of
`extract_academic_metadata`. -/
def pathAfterAnchor (parts : List String) : List String :=
  match firstIdx "docs" parts with
  | some i => parts.drop (i + 1)
  | none =>
    match firstIdx "data" parts with
    | some i => parts.drop (i + 1)
    | none => if 4 ≤ parts.length then parts.drop (parts.length - 4) else parts

/-- `Path.name` of a path given as its components. -/
def fileNameOf (parts : List String) : String := parts.getLast?.getD ""

/-- `Path.parent.name` of a path given as its components. -/
def parentDirOf (parts : List String) : String := parts.dropLast.getLast?.getD ""

/-- The final step of `extract_academic_metadata`: when the resolved
`tipo_documento` is exam-like, merge in the exam metadata and remove the
unit fields that do not apply to exams. -/
def applyExamStep (m3 : Metadata) (name : String) : Metadata :=
  let tipoDoc := getStrD m3 "tipo_documento" ""
  if tipoDoc ∈ examKinds then
    popKey (popKey (mUpdate m3 (extractExamMetadata name)) "unidad_numero") "unidad_tema"
  else m3

/-- `DocumentLoader.extract_academic_metadata` (the document content is not
consulted by the Python function, so it is not a parameter here).  The path
is given as its components (`Path.parts`). -/
def extractAcademicMetadata (parts : List String) : Metadata :=
  let pad := pathAfterAnchor parts
  let name := fileNameOf parts
  let m1 : Metadata :=
    if 1 ≤ pad.length then
      setV [] "materia" (.str (underscoreToSpace (pad.headD "")))
    else
      setV [] "materia" (.str (detectMateriaFallback name (parentDirOf parts)))
  let m2 :=
    if 2 ≤ pad.length then
      let level2 := pad.getD 1 ""
      if isUnitFolder level2 then
        let ma :=
          match extractUnitNumber level2 with
          | some n => setV m1 "unidad_numero" (.int n)
          | none => m1
        let mb := setV ma "unidad_tema" (.str (extractUnitTopic level2))
        if 3 ≤ pad.length then
          setV mb "tipo_documento" (.str (normalizeTipoDocumento (pad.getD 2 "")))
        else
          setV mb "tipo_documento" (.str (detectTipoDocumentoFallback name))
      else
        let ma := setV m1 "tipo_documento" (.str (normalizeTipoDocumento level2))
        let mb :=
          match extractUnitFromFilename name with
          | some uff =>
            match reSearch reUnidadCap uff.data with
            | some cap => setV ma "unidad_numero" (.int (Int.ofNat (digitsToNat (cap.getD []))))
            | none => ma
          | none => ma
        match extractUnitTopicFromFilename name with
        | some t => setV mb "unidad_tema" (.str t)
        | none => mb
    else
      setV m1 "tipo_documento" (.str (detectTipoDocumentoFallback name))
  let nl := lowerL name.data
  let m3 :=
    if containsAny nl ["basico", "introductorio", "intro"] then
      setV m2 "nivel_sugerido" (.str "introductorio")
    else if containsSub nl "avanzado".data then
      setV m2 "nivel_sugerido" (.str "avanzado")
    else if containsAny nl ["intermedio", "medio"] then
      setV m2 "nivel_sugerido" (.str "intermedio")
    else m2
  applyExamStep m3 name

/-! ## `src/query_utils.py` — `normalize_text`

The Unicode primitives (`str.lower`, NFD decomposition, the `Mn` category)
are modelled on the ASCII plus Spanish accented repertoire the repository
processes: characters outside the tables decompose to themselves, which is
exact for every character the final `[^a-z0-9]` filter can keep. -/

/-- NFD decomposition table for the Spanish accented letters (acute mark
`U+0301`, diaeresis `U+0308`, tilde `U+0303`); model of
`unicodedata.normalize('NFD', ...)` per character. -/
def nfdTable : List (Char × List Char) :=
  [('á', ['a', '́']), ('é', ['e', '́']), ('í', ['i', '́']),
   ('ó', ['o', '́']), ('ú', ['u', '́']), ('ü', ['u', '̈']),
   ('ñ', ['n', '̃']),
   ('Á', ['A', '́']), ('É', ['E', '́']), ('Í', ['I', '́']),
   ('Ó', ['O', '́']), ('Ú', ['U', '́']), ('Ü', ['U', '̈']),
   ('Ñ', ['N', '̃'])]

/-- NFD decomposition of one character. -/
def nfdChar (c : Char) : List Char :=
  match nfdTable.lookup c with
  | some l => l
  | none => [c]

/-- `unicodedata.category(c) == 'Mn'`, modelled as membership in the
Combining Diacritical Marks block (`U+0300`–`U+036F`), which contains every
mark the modelled NFD step can produce. -/
def isMn (c : Char) : Bool := 0x300 ≤ c.toNat && c.toNat ≤ 0x36F

/-- The character class `[a-z0-9]` kept by `re.sub(r'[^a-z0-9]', '', text)`. -/
def isLowerAlnum (c : Char) : Bool :=
  ('a' ≤ c && c ≤ 'z') || ('0' ≤ c && c ≤ '9')

/-- `query_utils.normalize_text`. -/
def normalizeText (s : String) : String :=
  if s = "" then ""
  else
    let lowered := s.data.map pythonLower
    let nfd := lowered.flatMap nfdChar
    let noMarks := nfd.filter (fun c => !isMn c)
    String.mk (noMarks.filter isLowerAlnum)

theorem char_toNat_le_of_le {a b : Char} (h : a ≤ b) : a.toNat ≤ b.toNat := by
  rw [Char.le_def, UInt32.le_def] at h
  exact h

theorem toNat_le_of_isLowerAlnum {c : Char} (h : isLowerAlnum c = true) :
    c.toNat ≤ 122 ∧ 48 ≤ c.toNat := by
  simp only [isLowerAlnum, Bool.or_eq_true, Bool.and_eq_true, decide_eq_true_eq] at h
  rcases h with ⟨h1, h2⟩ | ⟨h1, h2⟩ <;>
    exact ⟨le_trans (char_toNat_le_of_le h2) (by decide),
      le_trans (by decide) (char_toNat_le_of_le h1)⟩

theorem lookup_none_of_big_keys {β : Type} (tbl : List (Char × β)) (c : Char)
    (hc : c.toNat ≤ 122) (hk : ∀ p ∈ tbl, 122 < p.1.toNat) :
    tbl.lookup c = none := by
  induction tbl with
  | nil => rfl
  | cons p rest ih =>
    have hne : (c == p.1) = false := by
      rw [beq_eq_false_iff_ne]
      intro hcd
      have := hk p (by simp)
      rw [hcd] at hc
      omega
    obtain ⟨k, v⟩ := p
    simp only [List.lookup, hne]
    exact ih (fun q hq => hk q (by simp [hq]))

theorem pythonLower_fixed {c : Char} (h : isLowerAlnum c = true) :
    pythonLower c = c := by
  have hle := (toNat_le_of_isLowerAlnum h).1
  unfold pythonLower
  have hAZ : ¬('A' ≤ c ∧ c ≤ 'Z') := by
    rintro ⟨h1, h2⟩
    have h1n := char_toNat_le_of_le h1
    have h2n := char_toNat_le_of_le h2
    have hge := (toNat_le_of_isLowerAlnum h).2
    simp only [isLowerAlnum, Bool.or_eq_true, Bool.and_eq_true, decide_eq_true_eq] at h
    rcases h with ⟨ha, _⟩ | ⟨_, hb⟩
    · have han := char_toNat_le_of_le ha
      have : (97 : Nat) ≤ 'a'.toNat := by decide
      have : 'Z'.toNat ≤ 90 := by decide
      omega
    · have hbn := char_toNat_le_of_le hb
      have : (65 : Nat) ≤ 'A'.toNat := by decide
      have : '9'.toNat ≤ 57 := by decide
      omega
  rw [if_neg hAZ, lookup_none_of_big_keys accentLowerTable c hle (by decide)]

theorem nfdChar_fixed {c : Char} (h : isLowerAlnum c = true) :
    nfdChar c = [c] := by
  have hle := (toNat_le_of_isLowerAlnum h).1
  unfold nfdChar
  rw [lookup_none_of_big_keys nfdTable c hle (by decide)]

theorem isMn_false_of_isLowerAlnum {c : Char} (h : isLowerAlnum c = true) :
    isMn c = false := by
  have hle := (toNat_le_of_isLowerAlnum h).1
  simp only [isMn, Bool.and_eq_false_iff, decide_eq_false_iff_not]
  left
  omega

/-! ## `src/text_processing.py` — `AcademicTextSplitter._estimate_difficulty` -/

/-- The beginner keyword list of `_estimate_difficulty`. -/
def beginnerKeywords : List String :=
  ["básico", "simple", "elemental", "introducción", "concepto",
   "definición", "ejemplo", "caso simple"]

/-- The advanced keyword list of `_estimate_difficulty`. -/
def advancedKeywords : List String :=
  ["avanzado", "complejo", "sofisticado", "teorema", "demostración",
   "corolario", "lema", "proposición", "análisis", "síntesis"]

/-- `sum(1 for keyword in keywords if keyword in content)`. -/
def countKeywordsIn (kws : List String) (content : List Char) : Nat :=
  kws.foldl (fun n k => if containsSub content k.data then n + 1 else n) 0

/-- `AcademicTextSplitter._estimate_difficulty`. -/
def estimateDifficulty (content : String) : String :=
  let cs := content.data
  let beginnerCount := countKeywordsIn beginnerKeywords cs
  let advancedCount := countKeywordsIn advancedKeywords cs
  if beginnerCount < advancedCount then "avanzado"
  else if 0 < beginnerCount then "introductorio"
  else "intermedio"

/-- Number of non-overlapping occurrences of `needle` (structural recursion
on a fuel that starts at the length of `hay` and never runs out, since each
step consumes at least one character). -/
def countOccAux (needle : List Char) : Nat → List Char → Nat
  | _, [] => 0
  | 0, _ => 0
  | f + 1, hd :: rest =>
    if needle.length ≠ 0 ∧ startsWithL needle (hd :: rest) = true then
      1 + countOccAux needle f ((hd :: rest).drop needle.length)
    else
      countOccAux needle f rest

/-- Number of non-overlapping occurrences of `needle` in `hay`
(the «count of occurrences» reading; `0` for an empty needle). -/
def countOcc (needle hay : List Char) : Nat :=
  countOccAux needle hay.length hay

/-- Modelled from the spec: the total occurrence count of a keyword list,
«count of occurrences of advanced keywords» / «of beginner keywords». -/
def occCount (kws : List String) (content : List Char) : Nat :=
  (kws.map (fun k => countOcc k.data content)).sum

/-- Modelled from the spec (claim wording, occurrence counts): `avanzado`
if the advanced occurrence count exceeds the beginner occurrence count,
else `introductorio` if the beginner occurrence count is positive, else
`intermedio`. -/
def claimedDifficultyOcc (content : String) : String :=
  let cs := content.data
  let beginnerCount := occCount beginnerKeywords cs
  let advancedCount := occCount advancedKeywords cs
  if beginnerCount < advancedCount then "avanzado"
  else if 0 < beginnerCount then "introductorio"
  else "intermedio"

/-- Amended wording: counts of *distinct listed keywords occurring* in the
content (each keyword contributing at most one regardless of
multiplicity). -/
def claimedDifficultyDistinct (content : String) : String :=
  let cs := content.data
  let beginnerCount := beginnerKeywords.countP (fun k => containsSub cs k.data)
  let advancedCount := advancedKeywords.countP (fun k => containsSub cs k.data)
  if beginnerCount < advancedCount then "avanzado"
  else if 0 < beginnerCount then "introductorio"
  else "intermedio"

/-! ## `src/vector_store.py` — `VectorStore`

Documents are LangChain documents: page content plus a metadata dict.  The
underlying ChromaDB collection (`self.vectorstore`) is an external
collaborator, passed in as a function; `mkStore` is the store the batch
isolation property postulates, in which exactly the chunks with a failing
content raise a store-level exception — in their batch and individually. -/

/-- A LangChain document: `page_content` plus metadata. -/
structure Doc where
  content : String
  metadata : Metadata
  deriving DecidableEq

/-- A store in which insertion raises (with message `err`) exactly when the
batch contains a document whose content satisfies `fails`, and otherwise
returns one ID per document (computed by `ident` from the content). -/
def mkStore (fails : String → Bool) (ident : String → String) (err : String)
    (batch : List Doc) : Except String (List String) :=
  if batch.any (fun d => fails d.content) then .error err
  else .ok (batch.map (fun d => ident d.content))

/-- The metadata written to every document of a failing batch before the
individual retry (`_batch_error`, `_batch_number`). -/
def tagBatchErr (e : String) (bno : Nat) (d : Doc) : Doc :=
  let m := setV (setV d.metadata "_batch_error" (.str e)) "_batch_number" (.int (Int.ofNat bno))
  { d with metadata := m }

/-- The metadata written to a document that still fails when retried
individually (`_individual_error`, `_document_position = j+1`,
`_failed_processing`). -/
def tagFail (e : String) (j : Nat) (d : Doc) : Doc :=
  let m1 := setV d.metadata "_individual_error" (.str e)
  let m2 := setV m1 "_document_position" (.int (Int.ofNat (j + 1)))
  { d with metadata := setV m2 "_failed_processing" (.bool true) }

/-- The per-document retry loop of `add_documents` (`for j, doc in
enumerate(batch): try ... except ...`), returning the collected IDs and the
final state of the documents. -/
def retryIndividually (store : List Doc → Except String (List String)) :
    List Doc → Nat → List String × List Doc
  | [], _ => ([], [])
  | d :: rest, j =>
    let r := retryIndividually store rest (j + 1)
    match store [d] with
    | .ok ids => (ids ++ r.1, d :: r.2)
    | .error e => (r.1, tagFail e j d :: r.2)

/-- One iteration of the batch loop of `add_documents`: try the whole
batch; on a store-level exception tag every document of the batch and
retry them one by one. -/
def processBatch (store : List Doc → Except String (List String))
    (batch : List Doc) (bno : Nat) : List String × List Doc :=
  match store batch with
  | .ok ids => (ids, batch)
  | .error e => retryIndividually store (batch.map (tagBatchErr e bno)) 0

/-- The batch loop of `add_documents` (`for i in range(0, len(cleaned),
batch_size)`), for a positive batch size. -/
def addLoop (store : List Doc → Except String (List String)) (bs : Nat) :
    List Doc → Nat → List String × List Doc
  | [], _ => ([], [])
  | d :: ds, bno =>
    let batch := d :: ds.take (bs - 1)
    let rest := ds.drop (bs - 1)
    let rb := processBatch store batch bno
    let rr := addLoop store bs rest (bno + 1)
    (rb.1 ++ rr.1, rb.2 ++ rr.2)
termination_by docs => docs.length
decreasing_by
  simp_wf
  omega

/-- `VectorStore.add_documents`: clean every document, insert in batches
with the individual-retry fallback, and return the collected IDs (the
second component is the final state of the cleaned documents, which Python
mutates in place).  The content sanitation pass `_clean_document_content`
is total in the source (it catches its own exceptions) and is passed in as
`clean`. -/
def addDocuments (store : List Doc → Except String (List String))
    (clean : Doc → Doc) (documents : List Doc) (batchSize : Nat) :
    List String × List Doc :=
  if documents.isEmpty then ([], [])
  else addLoop store batchSize (documents.map clean) 1

/-- ChromaDB filter values: primitives, objects and arrays (the shapes
`_convert_filter_to_chroma` can build). -/
inductive JVal where
  | prim (v : Value)
  | obj (fields : List (String × JVal))
  | arr (elems : List JVal)

/-- The equality condition `{key: {"$eq": value}}`. -/
def eqCond (k : String) (v : Value) : JVal := .obj [(k, .obj [("$eq", .prim v)])]

/-- `VectorStore._convert_filter_to_chroma` (`None` when the filter dict is
falsy). -/
def convertFilterToChroma (filterDict : List (String × Value)) : Option JVal :=
  if filterDict.isEmpty then none
  else if 1 < filterDict.length then
    some (.obj [("$and", .arr (filterDict.map (fun kv => eqCond kv.1 kv.2)))])
  else
    match filterDict.head? with
    | some (k, v) => some (eqCond k v)
    | none => none

/-- `VectorStore.similarity_search`: with a truthy filter dict, search with
the converted filter; otherwise search without a filter.  The underlying
LangChain search is the function `backend`. -/
def similaritySearch (backend : String → Nat → Option JVal → List Doc)
    (query : String) (k : Nat) (filterDict : List (String × Value)) : List Doc :=
  if !filterDict.isEmpty then
    backend query k (convertFilterToChroma filterDict)
  else
    backend query k none

/-! ## `src/retriever.py` — `Retriever`

Similarity scores (Python floats) are modelled as rationals; the wrapped
vector store and the pre-built native retriever are passed as functions.
`F` is the type of filter payloads handed through to the store. -/

/-- The configured state of a `Retriever` (`self.k`,
`self.score_threshold`). -/
structure RetrieverCfg where
  k : Nat
  scoreThreshold : ℚ

/-- Python `k = k or self.k`: `None` and `0` are falsy, so both select the
configured default. -/
def effK (kArg : Option Nat) (dflt : Nat) : Nat :=
  match kArg with
  | none => dflt
  | some k => if k = 0 then dflt else k

/-- `Retriever.retrieve`. -/
def retrieve {F : Type}
    (searchWithScore : String → Nat → Option F → List (Doc × ℚ))
    (search : String → Nat → Option F → List Doc)
    (nativeInvoke : String → List Doc)
    (cfg : RetrieverCfg) (query : String) (kArg : Option Nat)
    (filterDict : Option F) (includeScores : Bool) : List Doc :=
  let k := effK kArg cfg.k
  if includeScores then
    ((searchWithScore query k filterDict).filter
        (fun p => cfg.scoreThreshold ≤ p.2)).map Prod.fst
  else if filterDict.isNone && k == cfg.k then
    nativeInvoke query
  else
    search query k filterDict

/-- `Retriever.retrieve_with_scores`. -/
def retrieveWithScores {F : Type}
    (searchWithScore : String → Nat → Option F → List (Doc × ℚ))
    (cfg : RetrieverCfg) (query : String) (kArg : Option Nat)
    (filterDict : Option F) : List (Doc × ℚ) :=
  let k := effK kArg cfg.k
  (searchWithScore query k filterDict).filter (fun p => cfg.scoreThreshold ≤ p.2)

/-! ## `src/data_loading.py` — `load_single_document` and `_clean_metadata` -/

/-- The `fields_to_remove` set of `_clean_metadata`. -/
def fieldsToRemove : List String :=
  ["creator", "author", "title", "producer", "creationdate", "moddate",
   "keywords", "subject", "trapped", "ptex.fullbanner", "difficulty_hint"]

/-- `DocumentLoader._clean_metadata`: keep exactly the entries whose key is
not in `fields_to_remove` (the remainder of the Python function only logs
missing expected fields). -/
def cleanMetadata (metadata : Metadata) : Metadata :=
  metadata.filter (fun p => decide (p.1 ∉ fieldsToRemove))

/-- The keys of `self.loaders` (supported extensions). -/
def loaderExtensions : List String := [".pdf", ".txt", ".tex"]

/-- `DocumentLoader.load_single_document`: raise on an unsupported
extension, otherwise enrich every loaded document's metadata with the basic
metadata, then the custom extractor's metadata, then clean it.  The format
loader's output is `loaded`; the custom extractor (already applied to the
file path) is `extractor`. -/
def loadSingleDocument (fileExt : String) (loaded : List Doc)
    (basicMeta : Metadata) (extractor : Option (String → Metadata)) :
    Except String (List Doc) :=
  if fileExt ∉ loaderExtensions then .error ("Extensión no soportada: " ++ fileExt)
  else .ok (loaded.map (fun d =>
    let m1 := mUpdate d.metadata basicMeta
    let m2 :=
      match extractor with
      | some f => mUpdate m1 (f d.content)
      | none => m1
    { d with metadata := cleanMetadata m2 }))

/-! ## Theorems -/

theorem string_mk_data (s : String) : String.mk s.data = s := by
  cases s
  rfl

theorem flatMap_nfdChar_id (l : List Char) (h : ∀ c ∈ l, nfdChar c = [c]) :
    l.flatMap nfdChar = l := by
  induction l with
  | nil => rfl
  | cons c t ih =>
    rw [List.flatMap_cons, h c (by simp), ih (fun x hx => h x (by simp [hx]))]
    rfl

theorem normalizeText_chars_alnum (s : String) :
    ∀ c ∈ (normalizeText s).data, isLowerAlnum c = true := by
  intro c hc
  unfold normalizeText at hc
  split at hc
  · exact absurd hc (List.not_mem_nil c)
  · exact (List.mem_filter.mp hc).2

theorem normalizeText_fixes_alnum (l : List Char)
    (h : ∀ c ∈ l, isLowerAlnum c = true) :
    normalizeText (String.mk l) = String.mk l := by
  unfold normalizeText
  split
  · rename_i h0
    exact h0.symm
  · have hmap : l.map pythonLower = l := by
      calc l.map pythonLower = l.map id :=
            List.map_eq_map_iff.mpr (fun c hc => by rw [pythonLower_fixed (h c hc)]; rfl)
        _ = l := l.map_id
    have h1 : l.filter (fun c => !isMn c) = l :=
      List.filter_eq_self.mpr
        (fun c hc => by rw [isMn_false_of_isLowerAlnum (h c hc)]; rfl)
    have h2 : l.filter isLowerAlnum = l := List.filter_eq_self.mpr h
    show String.mk (((l.map pythonLower).flatMap nfdChar).filter (fun c => !isMn c)
        |>.filter isLowerAlnum) = String.mk l
    rw [hmap, flatMap_nfdChar_id l (fun c hc => nfdChar_fixed (h c hc)), h1, h2]

/-- **C7**: normalization idempotence — for every string `s`,
`normalize_text(normalize_text(s)) == normalize_text(s)`, where
`normalize_text` lower-cases, strips diacritics via NFD decomposition
dropping combining marks, and removes every character outside
`[a-z0-9]`. -/
theorem normalizeText_idempotent (s : String) :
    normalizeText (normalizeText s) = normalizeText s := by
  have h := normalizeText_fixes_alnum (normalizeText s).data (normalizeText_chars_alnum s)
  rwa [string_mk_data] at h

theorem countKeywordsIn_eq_countP (kws : List String) (cs : List Char) :
    countKeywordsIn kws cs = kws.countP (fun k => containsSub cs k.data) := by
  suffices h : ∀ (a : Nat) (ks : List String),
      ks.foldl (fun n k => if containsSub cs k.data then n + 1 else n) a =
        a + ks.countP (fun k => containsSub cs k.data) by
    simpa using h 0 kws
  intro a ks
  induction ks generalizing a with
  | nil => simp
  | cons k t ih =>
    by_cases hk : containsSub cs k.data <;>
      (simp [List.countP_cons, hk, ih]; try omega)

/-- **C6** (counterexample): the claim reads the counts as *occurrence*
counts; on a content where a beginner keyword occurs twice the code (which
counts each keyword at most once) reports `avanzado`, while the claimed
occurrence-count rule demands `introductorio`. -/
theorem estimateDifficulty_not_occurrence_counts :
    estimateDifficulty "básico básico teorema análisis" = "avanzado" ∧
    ¬(occCount beginnerKeywords ("básico básico teorema análisis").data <
        occCount advancedKeywords ("básico básico teorema análisis").data) ∧
    0 < occCount beginnerKeywords ("básico básico teorema análisis").data ∧
    claimedDifficultyOcc "básico básico teorema análisis" = "introductorio" ∧
    estimateDifficulty "básico básico teorema análisis" ≠
      claimedDifficultyOcc "básico básico teorema análisis" := by
  decide

/-- **C6** (amended): `difficulty_hint` equals `avanzado` when the number of
*distinct* advanced keywords occurring in the content exceeds the number of
distinct beginner keywords occurring (each listed keyword counted at most
once, regardless of multiplicity); else `introductorio` when at least one
beginner keyword occurs; else `intermedio` — advanced dominance checked
first. -/
theorem estimateDifficulty_eq_distinct_keyword_rule (content : String) :
    estimateDifficulty content = claimedDifficultyDistinct content := by
  simp only [estimateDifficulty, claimedDifficultyDistinct, countKeywordsIn_eq_countP]

/-- **C4** (counterexample): a single-key filter is *not* passed through
directly — `{"materia": "algebra"}` is converted to the explicit equality
condition `{"materia": {"$eq": "algebra"}}`. -/
theorem convertFilter_single_key_not_passthrough :
    convertFilterToChroma [("materia", .str "algebra")] =
      some (JVal.obj [("materia", JVal.obj [("$eq", JVal.prim (.str "algebra"))])]) ∧
    convertFilterToChroma [("materia", .str "algebra")] ≠
      some (JVal.obj [("materia", JVal.prim (.str "algebra"))]) := by
  constructor
  · rfl
  · intro h
    simp [convertFilterToChroma, eqCond] at h

/-- **C4** (amended): an empty filter mapping applies no filter to the
similarity search; a mapping with two or more keys is converted to
`{"$and": [one equality condition per key/value pair]}`; and a single-key
mapping `{k: v}` is converted to the single equality condition
`{k: {"$eq": v}}` (not wrapped in `$and`); every truthy mapping is passed
through the conversion before reaching the backend search. -/
theorem convertFilter_spec :
    (∀ (backend : String → Nat → Option JVal → List Doc) (q : String) (k : Nat),
      similaritySearch backend q k [] = backend q k none) ∧
    (∀ (k : String) (v : Value),
      convertFilterToChroma [(k, v)] = some (eqCond k v)) ∧
    (∀ fd : List (String × Value), 2 ≤ fd.length →
      convertFilterToChroma fd =
        some (.obj [("$and", .arr (fd.map (fun kv => eqCond kv.1 kv.2)))])) ∧
    (∀ (backend : String → Nat → Option JVal → List Doc) (q : String) (k : Nat)
      (fd : List (String × Value)), fd ≠ [] →
      similaritySearch backend q k fd = backend q k (convertFilterToChroma fd)) := by
  refine ⟨fun backend q k => rfl, fun k v => rfl, ?_, ?_⟩
  · intro fd hfd
    match fd, hfd with
    | a :: b :: t, _ =>
      simp [convertFilterToChroma]
  · intro backend q k fd hfd
    unfold similaritySearch
    rw [if_pos]
    simp [List.isEmpty_iff, hfd]

/-- Witness for `convertFilter_spec` at a concrete two-key filter. -/
theorem convertFilter_spec_witness :
    convertFilterToChroma [("materia", .str "algebra"), ("año", .int 2023)] =
      some (.obj [("$and", .arr
        [eqCond "materia" (.str "algebra"), eqCond "año" (.int 2023)])]) := by
  have h := convertFilter_spec.2.2.1 [("materia", .str "algebra"), ("año", .int 2023)]
    (by decide)
  simpa using h

/-- **C8**: `retrieve` with `include_scores = true` calls the scored search
and returns exactly the documents whose score is at least the configured
`score_threshold`, discarding every result below it. -/
theorem retrieve_includeScores_thresholds {F : Type}
    (searchWithScore : String → Nat → Option F → List (Doc × ℚ))
    (search : String → Nat → Option F → List Doc)
    (nativeInvoke : String → List Doc)
    (cfg : RetrieverCfg) (query : String) (kArg : Option Nat)
    (filterDict : Option F) :
    retrieve searchWithScore search nativeInvoke cfg query kArg filterDict true =
      ((searchWithScore query (effK kArg cfg.k) filterDict).filter
        (fun p => cfg.scoreThreshold ≤ p.2)).map Prod.fst ∧
    ∀ d : Doc,
      d ∈ retrieve searchWithScore search nativeInvoke cfg query kArg filterDict true ↔
      ∃ sc : ℚ, (d, sc) ∈ searchWithScore query (effK kArg cfg.k) filterDict ∧
        cfg.scoreThreshold ≤ sc := by
  constructor
  · rfl
  · intro d
    show d ∈ ((searchWithScore query (effK kArg cfg.k) filterDict).filter
        (fun p => cfg.scoreThreshold ≤ p.2)).map Prod.fst ↔ _
    simp only [List.mem_map, List.mem_filter, decide_eq_true_eq]
    constructor
    · rintro ⟨⟨d0, sc⟩, ⟨hmem, hsc⟩, rfl⟩
      exact ⟨sc, hmem, hsc⟩
    · rintro ⟨sc, hmem, hsc⟩
      exact ⟨(d, sc), ⟨hmem, hsc⟩, rfl⟩

/-- **C9**: `k = k or self.k` treats `k = 0` as falsy, so `retrieve` (and
`retrieve_with_scores`) called with `k = 0` behaves identically to the call
with `k` omitted, using the configured default `k`. -/
theorem retrieve_k_zero_uses_default {F : Type}
    (searchWithScore : String → Nat → Option F → List (Doc × ℚ))
    (search : String → Nat → Option F → List Doc)
    (nativeInvoke : String → List Doc)
    (cfg : RetrieverCfg) (query : String) (filterDict : Option F)
    (includeScores : Bool) :
    retrieve searchWithScore search nativeInvoke cfg query (some 0) filterDict
        includeScores =
      retrieve searchWithScore search nativeInvoke cfg query none filterDict
        includeScores ∧
    retrieveWithScores searchWithScore cfg query (some 0) filterDict =
      retrieveWithScores searchWithScore cfg query none filterDict := by
  constructor <;> rfl

theorem getV_cleanMetadata_removed (m : Metadata) (k : String)
    (hk : k ∈ fieldsToRemove) : getV (cleanMetadata m) k = none := by
  induction m with
  | nil => rfl
  | cons p rest ih =>
    obtain ⟨k0, v0⟩ := p
    unfold cleanMetadata at *
    by_cases h0 : k0 ∈ fieldsToRemove
    · simpa [List.filter_cons, h0] using ih
    · have hne : k0 ≠ k := fun heq => h0 (heq ▸ hk)
      simpa [List.filter_cons, h0, getV, hne] using ih

/-- **C10**: every document returned by `load_single_document` has metadata
containing none of the keys in `fields_to_remove` (`creator`, `author`,
`title`, `producer`, `creationdate`, `moddate`, `keywords`, `subject`,
`trapped`, `ptex.fullbanner`, `difficulty_hint`) — the final cleaning pass
removes them even if the format loader or the custom extractor added
them. -/
theorem loadSingleDocument_removes_fields (fileExt : String) (loaded : List Doc)
    (basicMeta : Metadata) (extractor : Option (String → Metadata))
    (ds : List Doc)
    (h : loadSingleDocument fileExt loaded basicMeta extractor = .ok ds) :
    ∀ d ∈ ds, ∀ k ∈ fieldsToRemove, getV d.metadata k = none := by
  unfold loadSingleDocument at h
  split at h
  · exact absurd h (by simp)
  · intro d hd k hk
    obtain ⟨d0, _, rfl⟩ := List.mem_map.mp (by injection h with h; exact h ▸ hd)
    exact getV_cleanMetadata_removed _ k hk

/-- Witness for `loadSingleDocument_removes_fields`: a PDF whose loader
output carries a `creator` key loses it after loading. -/
theorem loadSingleDocument_removes_fields_witness :
    getV (Doc.mk "body" [("page", .int 1), ("filename", .str "a.pdf")]).metadata
      "creator" = none := by
  have h := loadSingleDocument_removes_fields ".pdf"
    [Doc.mk "body" [("creator", .str "x"), ("page", .int 1)]]
    [("filename", .str "a.pdf")] none
    [Doc.mk "body" [("page", .int 1), ("filename", .str "a.pdf")]]
    (by rfl)
  exact h _ (by decide) "creator" (by decide)

/-- **C2**: for the filename `"2023_Q1_2P_A.pdf"` classified under an
`examenes` folder, the extracted academic metadata has `año = 2023`,
`cuatrimestre = 1`, `tipo_examen = "segundo_parcial"`, `tema = "A"`, and
contains neither `unidad_numero` nor `unidad_tema`. -/
theorem exam_metadata_2023_Q1_2P_A :
    getV (extractAcademicMetadata
      ["docs", "Probabilidad_y_estadistica", "examenes", "2023_Q1_2P_A.pdf"])
      "año" = some (.int 2023) ∧
    getV (extractAcademicMetadata
      ["docs", "Probabilidad_y_estadistica", "examenes", "2023_Q1_2P_A.pdf"])
      "cuatrimestre" = some (.int 1) ∧
    getV (extractAcademicMetadata
      ["docs", "Probabilidad_y_estadistica", "examenes", "2023_Q1_2P_A.pdf"])
      "tipo_examen" = some (.str "segundo_parcial") ∧
    getV (extractAcademicMetadata
      ["docs", "Probabilidad_y_estadistica", "examenes", "2023_Q1_2P_A.pdf"])
      "tema" = some (.str "A") ∧
    getV (extractAcademicMetadata
      ["docs", "Probabilidad_y_estadistica", "examenes", "2023_Q1_2P_A.pdf"])
      "unidad_numero" = none ∧
    getV (extractAcademicMetadata
      ["docs", "Probabilidad_y_estadistica", "examenes", "2023_Q1_2P_A.pdf"])
      "unidad_tema" = none := by
  decide

theorem applyExamStep_exclusive (m3 : Metadata) (name t : String)
    (h1 : getV (applyExamStep m3 name) "tipo_documento" = some (.str t))
    (h2 : t ∈ examKinds) :
    getV (applyExamStep m3 name) "unidad_numero" = none ∧
    getV (applyExamStep m3 name) "unidad_tema" = none := by
  unfold applyExamStep at h1 ⊢
  by_cases h : getStrD m3 "tipo_documento" "" ∈ examKinds
  · rw [if_pos h]
    constructor
    · rw [getV_popKey_ne _ _ _ (by decide), getV_popKey_self]
    · rw [getV_popKey_self]
  · rw [if_neg h] at h1
    exact absurd (by simpa [getStrD, h1] using h2) h

/-- **C3**: mutual exclusivity — whenever the academic metadata extractor
classifies a document with a `tipo_documento` among the exam kinds
(`examenes`, `parciales`, `finales`), the returned metadata contains
neither `unidad_numero` nor `unidad_tema`. -/
theorem extractAcademicMetadata_exam_unit_exclusive (parts : List String) (t : String)
    (h1 : getV (extractAcademicMetadata parts) "tipo_documento" = some (.str t))
    (h2 : t ∈ examKinds) :
    getV (extractAcademicMetadata parts) "unidad_numero" = none ∧
    getV (extractAcademicMetadata parts) "unidad_tema" = none := by
  unfold extractAcademicMetadata at h1 ⊢
  exact applyExamStep_exclusive _ _ t h1 h2

/-- Witness for `extractAcademicMetadata_exam_unit_exclusive` on a concrete
exam path. -/
theorem extractAcademicMetadata_exam_unit_exclusive_witness :
    getV (extractAcademicMetadata ["docs", "Materia", "examenes", "x.pdf"])
      "unidad_numero" = none ∧
    getV (extractAcademicMetadata ["docs", "Materia", "examenes", "x.pdf"])
      "unidad_tema" = none :=
  extractAcademicMetadata_exam_unit_exclusive
    ["docs", "Materia", "examenes", "x.pdf"] "examenes" (by decide) (by decide)

theorem getV_examYearCuat_tipo (cs csl : List Char) :
    getV (examYearCuat cs csl) "tipo_examen" = none := by
  unfold examYearCuat
  split
  · split
    · rw [getV_setV_ne _ _ _ _ (by decide), getV_setV_ne _ _ _ _ (by decide)]
      rfl
    · rw [getV_setV_ne _ _ _ _ (by decide)]
      rfl
  · split
    · rw [getV_setV_ne _ _ _ _ (by decide)]
      rfl
    · rfl

theorem getV_examTema_ne (m : Metadata) (cs : List Char) (k : String)
    (hk : k ≠ "tema") : getV (examTema m cs) k = getV m k := by
  unfold examTema
  split
  · rw [getV_setV_ne _ _ _ _ (Ne.symm hk)]
  · rfl

theorem getV_examTipo_tipo (m : Metadata) (csl : List Char) :
    getV (examTipo m csl) "tipo_examen" =
      (if containsAny csl ["recup", "recuperatorio", "recuperacion"] then
        some (Value.str "recuperatorio")
      else if containsAny csl ["final"] then some (Value.str "final")
      else if containsSub csl "parcial".data || containsSub csl "p".data then
        (if parcialNum csl = 1 then some (Value.str "primer_parcial")
         else if parcialNum csl = 2 then some (Value.str "segundo_parcial")
         else getV m "tipo_examen")
      else getV m "tipo_examen") := by
  simp only [examTipo]
  split
  · exact getV_setV_self _ _ _
  · split
    · exact getV_setV_self _ _ _
    · split
      · split
        · exact getV_setV_self _ _ _
        · split
          · exact getV_setV_self _ _ _
          · rfl
      · rfl

/-- **C5** (counterexample): a filename with neither a recovery keyword,
nor `final`, nor `parcial`, nor the letter `p` — such as `"tema1.txt"`,
exam-classified through its `examenes` folder — gets **no** `tipo_examen`
at all, so the extraction does not always set `tipo_examen`. -/
theorem exam_without_p_no_tipo_examen :
    getV (extractAcademicMetadata ["docs", "Materia", "examenes", "tema1.txt"])
      "tipo_documento" = some (.str "examenes") ∧
    getV (extractExamMetadata "tema1.txt") "tipo_examen" = none ∧
    getV (extractAcademicMetadata ["docs", "Materia", "examenes", "tema1.txt"])
      "tipo_examen" = none := by
  decide

/-- **C5** (amended): `tipo_examen` is `recuperatorio` when a recovery
keyword is present; else `final` when `"final"` is present; else, *provided
the lowercased filename contains `"parcial"` or the letter `"p"`*, the
parcial number detected by the ordered regex patterns (`primer_parcial` for
1 — in particular whenever no pattern matches, since the number defaults to
1 — and `segundo_parcial` for 2); otherwise `tipo_examen` is absent from
the extracted exam metadata. -/
theorem extractExamMetadata_tipo_examen (filename : String) :
    (containsAny (lowerL filename.data) ["recup", "recuperatorio", "recuperacion"] = true →
      getV (extractExamMetadata filename) "tipo_examen" = some (.str "recuperatorio")) ∧
    (containsAny (lowerL filename.data) ["recup", "recuperatorio", "recuperacion"] = false →
      containsAny (lowerL filename.data) ["final"] = true →
      getV (extractExamMetadata filename) "tipo_examen" = some (.str "final")) ∧
    (containsAny (lowerL filename.data) ["recup", "recuperatorio", "recuperacion"] = false →
      containsAny (lowerL filename.data) ["final"] = false →
      (containsSub (lowerL filename.data) "parcial".data
        || containsSub (lowerL filename.data) "p".data) = true →
      (parcialNum (lowerL filename.data) = 1 →
        getV (extractExamMetadata filename) "tipo_examen" = some (.str "primer_parcial")) ∧
      (parcialNum (lowerL filename.data) = 2 →
        getV (extractExamMetadata filename) "tipo_examen" = some (.str "segundo_parcial"))) ∧
    (containsAny (lowerL filename.data) ["recup", "recuperatorio", "recuperacion"] = false →
      containsAny (lowerL filename.data) ["final"] = false →
      (containsSub (lowerL filename.data) "parcial".data
        || containsSub (lowerL filename.data) "p".data) = false →
      getV (extractExamMetadata filename) "tipo_examen" = none) ∧
    (reSearch reParcial1 (lowerL filename.data) = none →
      reSearch reParcial2 (lowerL filename.data) = none →
      reSearch reParcial3 (lowerL filename.data) = none →
      reSearch reParcial4 (lowerL filename.data) = none →
      parcialNum (lowerL filename.data) = 1) := by
  have hkey : getV (extractExamMetadata filename) "tipo_examen" =
      getV (examTipo (examYearCuat filename.data (lowerL filename.data))
        (lowerL filename.data)) "tipo_examen" := by
    unfold extractExamMetadata
    exact getV_examTema_ne _ _ _ (by decide)
  rw [getV_examTipo_tipo] at hkey
  have hbase := getV_examYearCuat_tipo filename.data (lowerL filename.data)
  refine ⟨?_, ?_, ?_, ?_, ?_⟩
  · intro hr
    rw [hkey, if_pos hr]
  · intro hr hf
    rw [hkey, if_neg (by simp [hr]), if_pos hf]
  · intro hr hf hp
    constructor <;> intro hn
    · rw [hkey, if_neg (by simp [hr]), if_neg (by simp [hf]), if_pos hp, if_pos hn]
    · rw [hkey, if_neg (by simp [hr]), if_neg (by simp [hf]), if_pos hp,
        if_neg (by simp [hn]), if_pos hn]
  · intro hr hf hp
    rw [hkey, if_neg (by simp [hr]), if_neg (by simp [hf]), if_neg (by simp [hp])]
    exact hbase
  · intro h1 h2 h3 h4
    unfold parcialNum
    rw [h1, h2, h3, h4]

/-- Witness for `extractExamMetadata_tipo_examen`: the filename `"p.txt"`
contains a `p` but matches no parcial pattern, so the default of parcial 1
applies. -/
theorem extractExamMetadata_tipo_examen_witness :
    getV (extractExamMetadata "p.txt") "tipo_examen" = some (.str "primer_parcial") := by
  have h := (extractExamMetadata_tipo_examen "p.txt").2.2.1
  exact (h (by decide) (by decide) (by decide)).1 (by decide)

theorem countP_split {α : Type} (l : List α) (pred : α → Bool) :
    l.countP pred + l.countP (fun a => !pred a) = l.length := by
  induction l with
  | nil => simp
  | cons a t ih =>
    by_cases hfa : pred a <;> simp [List.countP_cons, hfa] <;> omega

section BatchIsolation

variable (fails : String → Bool) (ident : String → String) (err : String)

theorem getV_tagFail_ierr (e : String) (j : Nat) (d : Doc) :
    getV (tagFail e j d).metadata "_individual_error" = some (.str e) := by
  unfold tagFail
  rw [getV_setV_ne _ _ _ _ (by decide), getV_setV_ne _ _ _ _ (by decide), getV_setV_self]

theorem getV_tagFail_pos (e : String) (j : Nat) (d : Doc) :
    getV (tagFail e j d).metadata "_document_position" = some (.int (Int.ofNat (j + 1))) := by
  unfold tagFail
  rw [getV_setV_ne _ _ _ _ (by decide), getV_setV_self]

theorem getV_tagFail_failed (e : String) (j : Nat) (d : Doc) :
    getV (tagFail e j d).metadata "_failed_processing" = some (.bool true) := by
  unfold tagFail
  rw [getV_setV_self]

theorem retryIndividually_fst (ds : List Doc) (j : Nat) :
    (retryIndividually (mkStore fails ident err) ds j).1 =
      (ds.filter (fun d => !fails d.content)).map (fun d => ident d.content) := by
  induction ds generalizing j with
  | nil => rfl
  | cons d rest ih =>
    by_cases hf : fails d.content
    · have hs : mkStore fails ident err [d] = .error err := by simp [mkStore, hf]
      simp [retryIndividually, hs, ih, List.filter_cons, hf]
    · have hs : mkStore fails ident err [d] = .ok [ident d.content] := by
        simp [mkStore, hf]
      simp [retryIndividually, hs, ih, List.filter_cons, hf]

theorem retryIndividually_snd_length (ds : List Doc) (j : Nat) :
    (retryIndividually (mkStore fails ident err) ds j).2.length = ds.length := by
  induction ds generalizing j with
  | nil => rfl
  | cons d rest ih =>
    cases hs : mkStore fails ident err [d] <;> simp [retryIndividually, hs, ih]

theorem retryIndividually_snd_get (ds : List Doc) (j i : Nat) (hi : i < ds.length)
    (hf : fails ds[i].content = true) :
    (retryIndividually (mkStore fails ident err) ds j).2[i]? =
      some (tagFail err (j + i) ds[i]) := by
  induction ds generalizing j i with
  | nil => simp at hi
  | cons d rest ih =>
    cases i with
    | zero =>
      have hs : mkStore fails ident err [d] = .error err := by
        simpa [mkStore] using hf
      simp [retryIndividually, hs]
    | succ i2 =>
      have hi2 : i2 < rest.length := by simpa using hi
      have htail := ih (j + 1) i2 hi2 (by simpa using hf)
      have harith : j + 1 + i2 = j + (i2 + 1) := by omega
      rw [harith] at htail
      cases hs : mkStore fails ident err [d] <;>
        simpa [retryIndividually, hs] using htail

theorem tagged_filter_map_ids (bno : Nat) (batch : List Doc) :
    ((batch.map (tagBatchErr err bno)).filter (fun d => !fails d.content)).map
        (fun d => ident d.content) =
      (batch.filter (fun d => !fails d.content)).map (fun d => ident d.content) := by
  induction batch with
  | nil => rfl
  | cons d t ih =>
    by_cases hf : fails d.content <;>
      simp [List.filter_cons, tagBatchErr, hf, ih]

theorem processBatch_fst (batch : List Doc) (bno : Nat) :
    (processBatch (mkStore fails ident err) batch bno).1 =
      (batch.filter (fun d => !fails d.content)).map (fun d => ident d.content) := by
  unfold processBatch
  by_cases ha : batch.any (fun d => fails d.content)
  · have hs : mkStore fails ident err batch = .error err := by
      unfold mkStore
      rw [if_pos ha]
    rw [hs]
    rw [retryIndividually_fst, tagged_filter_map_ids]
  · have hs : mkStore fails ident err batch =
        .ok (batch.map (fun d => ident d.content)) := by
      unfold mkStore
      rw [if_neg ha]
    rw [hs]
    have hall : ∀ d ∈ batch, (!fails d.content) = true := by
      intro d hd
      simp only [List.any_eq_true, not_exists, not_and] at ha
      simp [ha d hd]
    rw [List.filter_eq_self.mpr hall]

theorem processBatch_snd_length (batch : List Doc) (bno : Nat) :
    (processBatch (mkStore fails ident err) batch bno).2.length = batch.length := by
  unfold processBatch
  cases hs : mkStore fails ident err batch
  · rw [retryIndividually_snd_length]
    simp
  · rfl

theorem processBatch_snd_get (batch : List Doc) (bno i : Nat) (hi : i < batch.length)
    (hf : fails batch[i].content = true) :
    (processBatch (mkStore fails ident err) batch bno).2[i]? =
      some (tagFail err i (tagBatchErr err bno batch[i])) := by
  unfold processBatch
  have ha : batch.any (fun d => fails d.content) = true :=
    List.any_eq_true.mpr ⟨batch[i], List.getElem_mem hi, hf⟩
  have hs : mkStore fails ident err batch = .error err := by
    unfold mkStore
    rw [if_pos ha]
  rw [hs]
  have hlen : i < (batch.map (tagBatchErr err bno)).length := by simpa using hi
  have hget : (batch.map (tagBatchErr err bno))[i] = tagBatchErr err bno batch[i] :=
    List.getElem_map _
  have hff : fails (batch.map (tagBatchErr err bno))[i].content = true := by
    rw [hget]
    exact hf
  have h := retryIndividually_snd_get fails ident err
    (batch.map (tagBatchErr err bno)) 0 i hlen hff
  rw [hget] at h
  simpa using h

theorem addLoop_fst (bs : Nat) (n : Nat) : ∀ (docs : List Doc), docs.length ≤ n →
    ∀ bno, (addLoop (mkStore fails ident err) bs docs bno).1 =
      (docs.filter (fun d => !fails d.content)).map (fun d => ident d.content) := by
  induction n with
  | zero =>
    intro docs h bno
    obtain rfl : docs = [] := List.eq_nil_of_length_eq_zero (by omega)
    simp [addLoop]
  | succ n ih =>
    intro docs h bno
    match docs with
    | [] => simp [addLoop]
    | d :: ds =>
      have hrest : (ds.drop (bs - 1)).length ≤ n := by
        simp only [List.length_drop]
        simp at h
        omega
      simp only [addLoop]
      rw [processBatch_fst, ih _ hrest (bno + 1), ← List.map_append, ← List.filter_append]
      rw [show d :: ds.take (bs - 1) ++ ds.drop (bs - 1) = d :: ds by
        simp [List.take_append_drop]]

theorem addLoop_snd_length (bs : Nat) (n : Nat) : ∀ (docs : List Doc),
    docs.length ≤ n → ∀ bno,
    (addLoop (mkStore fails ident err) bs docs bno).2.length = docs.length := by
  induction n with
  | zero =>
    intro docs h bno
    obtain rfl : docs = [] := List.eq_nil_of_length_eq_zero (by omega)
    simp [addLoop]
  | succ n ih =>
    intro docs h bno
    match docs with
    | [] => simp [addLoop]
    | d :: ds =>
      have hrest : (ds.drop (bs - 1)).length ≤ n := by
        simp only [List.length_drop]
        simp at h
        omega
      simp only [addLoop, List.length_append]
      rw [processBatch_snd_length, ih _ hrest (bno + 1)]
      simp only [List.length_cons, List.length_take, List.length_drop, Nat.min_def]
      split <;> omega

theorem addLoop_snd_get (bs : Nat) (hbs : 0 < bs) (n : Nat) : ∀ (docs : List Doc),
    docs.length ≤ n → ∀ bno (p : Nat) (hp : p < docs.length),
    fails docs[p].content = true →
    ∃ d, (addLoop (mkStore fails ident err) bs docs bno).2[p]? = some d ∧
      d.content = docs[p].content ∧
      getV d.metadata "_individual_error" = some (.str err) ∧
      getV d.metadata "_document_position" = some (.int (Int.ofNat (p % bs + 1))) ∧
      getV d.metadata "_failed_processing" = some (.bool true) := by
  induction n with
  | zero =>
    intro docs h bno p hp hf
    omega
  | succ n ih =>
    intro docs h bno p hp hf
    match docs, hp with
    | d :: ds, hp =>
      obtain ⟨b, rfl⟩ : ∃ b, bs = b + 1 := ⟨bs - 1, by omega⟩
      have hbatch : (d :: ds.take (b + 1 - 1)) = (d :: ds).take (b + 1) := by simp
      have hblen : (d :: ds.take (b + 1 - 1)).length ≤ b + 1 := by
        simp only [List.length_cons, List.length_take]
        omega
      simp only [addLoop]
      by_cases hcase : p < (d :: ds.take (b + 1 - 1)).length
      · -- the failing document lies in the first batch
        have hpbs : p < b + 1 := lt_of_lt_of_le hcase hblen
        have hbg : (d :: ds.take (b + 1 - 1))[p] = (d :: ds)[p] := by
          have h1 : (d :: ds.take (b + 1 - 1))[p]? = (d :: ds)[p]? := by
            rw [hbatch]
            exact List.getElem?_take_of_lt hpbs
          rwa [List.getElem?_eq_getElem hcase, List.getElem?_eq_getElem hp,
            Option.some.injEq] at h1
        have hfb : fails (d :: ds.take (b + 1 - 1))[p].content = true := by
          rw [hbg]
          exact hf
        have hgot := processBatch_snd_get fails ident err
          (d :: ds.take (b + 1 - 1)) bno p hcase hfb
        rw [hbg] at hgot
        refine ⟨tagFail err p (tagBatchErr err bno (d :: ds)[p]), ?_, rfl, ?_, ?_, ?_⟩
        · rw [List.getElem?_append_left
            (by rw [processBatch_snd_length]; exact hcase), hgot]
        · exact getV_tagFail_ierr _ _ _
        · rw [getV_tagFail_pos, Nat.mod_eq_of_lt hpbs]
        · exact getV_tagFail_failed _ _ _
      · -- the failing document lies in a later batch
        have hple : (d :: ds.take (b + 1 - 1)).length ≤ p := by omega
        have hbfull : (d :: ds.take (b + 1 - 1)).length = b + 1 := by
          have hp2 : p < ds.length + 1 := by simpa using hp
          have hple2 : (d :: ds.take (b + 1 - 1)).length ≤ p := hple
          simp only [List.length_cons, List.length_take] at hple2 ⊢
          omega
        have hrestlen : (ds.drop (b + 1 - 1)).length ≤ n := by
          simp only [List.length_drop]
          simp only [List.length_cons] at h
          omega
        have hrd : ds.drop (b + 1 - 1) = (d :: ds).drop (b + 1) := by simp
        have hpr : p - (b + 1) < (ds.drop (b + 1 - 1)).length := by
          rw [hrd, List.length_drop]
          simp only [List.length_cons] at hp ⊢
          omega
        have hrg : (ds.drop (b + 1 - 1))[p - (b + 1)] = (d :: ds)[p] := by
          have h1 : (ds.drop (b + 1 - 1))[p - (b + 1)]? = (d :: ds)[p]? := by
            rw [hrd, List.getElem?_drop,
              show b + 1 + (p - (b + 1)) = p by omega]
          rwa [List.getElem?_eq_getElem hpr, List.getElem?_eq_getElem hp,
            Option.some.injEq] at h1
        have hfr : fails (ds.drop (b + 1 - 1))[p - (b + 1)].content = true := by
          rw [hrg]
          exact hf
        obtain ⟨dd, hdd, hc, h1, h2, h3⟩ :=
          ih (ds.drop (b + 1 - 1)) hrestlen (bno + 1) (p - (b + 1)) hpr hfr
        refine ⟨dd, ?_, by rw [hc, hrg], h1, ?_, h3⟩
        · rw [List.getElem?_append_right
            (by rw [processBatch_snd_length]; exact hple)]
          rw [processBatch_snd_length, hbfull]
          exact hdd
        · rw [h2]
          have harith : (p - (b + 1)) % (b + 1) = p % (b + 1) := by
            conv_rhs => rw [show p = p - (b + 1) + (b + 1) by omega]
            rw [Nat.add_mod_right]
          rw [harith]

/-- **C1**: batch isolation of `add_documents` — against a store in which
exactly one cleaned chunk raises a store-level exception (in its batch and
when retried individually), `add_documents` returns the IDs of the `N−1`
successfully inserted chunks (in order), and the failing chunk's own
metadata records the error message (`_individual_error`), its (1-based)
position within its batch (`_document_position`), and `_failed_processing`.
No exception escapes: the call returns normally (the function is total, all
store errors being caught by the batch/individual handlers). -/
theorem addDocuments_batch_isolation (clean : Doc → Doc) (documents : List Doc)
    (bs : Nat) (hbs : 0 < bs)
    (hone : (documents.map clean).countP (fun d => fails d.content) = 1) :
    (addDocuments (mkStore fails ident err) clean documents bs).1 =
      ((documents.map clean).filter (fun d => !fails d.content)).map
        (fun d => ident d.content) ∧
    (addDocuments (mkStore fails ident err) clean documents bs).1.length + 1 =
      documents.length ∧
    (documents.map clean).findIdx (fun d => fails d.content) < documents.length ∧
    ∃ d, (addDocuments (mkStore fails ident err) clean documents bs).2[
        (documents.map clean).findIdx (fun d => fails d.content)]? = some d ∧
      fails d.content = true ∧
      getV d.metadata "_individual_error" = some (.str err) ∧
      getV d.metadata "_document_position" =
        some (.int (Int.ofNat
          ((documents.map clean).findIdx (fun d => fails d.content) % bs + 1))) ∧
      getV d.metadata "_failed_processing" = some (.bool true) := by
  have hex : ∃ x ∈ documents.map clean, fails x.content = true := by
    have h0 : 0 < (documents.map clean).countP (fun d => fails d.content) := by omega
    simpa using List.countP_pos_iff.mp h0
  have hne : documents ≠ [] := by
    rintro rfl
    simp at hone
  have hempty : documents.isEmpty = false := by
    simpa [List.isEmpty_iff] using hne
  have hfind : (documents.map clean).findIdx (fun d => fails d.content) <
      (documents.map clean).length :=
    List.findIdx_lt_length_of_exists hex
  have hfind' : (documents.map clean).findIdx (fun d => fails d.content) <
      documents.length := by simpa using hfind
  have hffail : fails ((documents.map clean)[(documents.map clean).findIdx
      (fun d => fails d.content)]).content = true := by
    have h0 := @List.findIdx_getElem Doc (fun d => fails d.content)
      (documents.map clean) hfind
    simpa using h0
  have hids : (addDocuments (mkStore fails ident err) clean documents bs).1 =
      ((documents.map clean).filter (fun d => !fails d.content)).map
        (fun d => ident d.content) := by
    unfold addDocuments
    rw [if_neg (by simp [hempty])]
    exact addLoop_fst fails ident err bs (documents.map clean).length
      (documents.map clean) le_rfl 1
  refine ⟨hids, ?_, hfind', ?_⟩
  · rw [hids]
    have hsplit := countP_split (documents.map clean) (fun d => fails d.content)
    simp only [List.countP_eq_length_filter] at hsplit hone
    simp only [List.length_map] at hsplit ⊢
    omega
  · obtain ⟨d, hd1, hd2, hd3, hd4, hd5⟩ := addLoop_snd_get fails ident err bs hbs
      (documents.map clean).length (documents.map clean) le_rfl 1
      ((documents.map clean).findIdx (fun d => fails d.content)) hfind hffail
    refine ⟨d, ?_, ?_, hd3, hd4, hd5⟩
    · unfold addDocuments
      rw [if_neg (by simp [hempty])]
      exact hd1
    · rw [hd2]
      exact hffail

end BatchIsolation

/-- Witness for `addDocuments_batch_isolation`: three chunks inserted with
batch size 2, the second one failing. -/
theorem addDocuments_batch_isolation_witness :
    (addDocuments
        (mkStore (fun c => c == "BAD") (fun c => c ++ "-id") "boom")
        (fun d => d) [Doc.mk "a" [], Doc.mk "BAD" [], Doc.mk "c" []] 2).1 =
      (([Doc.mk "a" [], Doc.mk "BAD" [], Doc.mk "c" []].map (fun d => d)).filter
        (fun d => !((fun c => c == "BAD") d.content))).map
          (fun d => (fun c => c ++ "-id") d.content) ∧
    (addDocuments
        (mkStore (fun c => c == "BAD") (fun c => c ++ "-id") "boom")
        (fun d => d) [Doc.mk "a" [], Doc.mk "BAD" [], Doc.mk "c" []] 2).1.length + 1 =
      ([Doc.mk "a" [], Doc.mk "BAD" [], Doc.mk "c" []] : List Doc).length ∧
    ([Doc.mk "a" [], Doc.mk "BAD" [], Doc.mk "c" []].map (fun d => d)).findIdx
        (fun d => (fun c => c == "BAD") d.content) <
      ([Doc.mk "a" [], Doc.mk "BAD" [], Doc.mk "c" []] : List Doc).length ∧
    ∃ d, (addDocuments
        (mkStore (fun c => c == "BAD") (fun c => c ++ "-id") "boom")
        (fun d => d) [Doc.mk "a" [], Doc.mk "BAD" [], Doc.mk "c" []] 2).2[
          ([Doc.mk "a" [], Doc.mk "BAD" [], Doc.mk "c" []].map (fun d => d)).findIdx
            (fun d => (fun c => c == "BAD") d.content)]? = some d ∧
      (fun c => c == "BAD") d.content = true ∧
      getV d.metadata "_individual_error" = some (.str "boom") ∧
      getV d.metadata "_document_position" =
        some (.int (Int.ofNat
          (([Doc.mk "a" [], Doc.mk "BAD" [], Doc.mk "c" []].map (fun d => d)).findIdx
            (fun d => (fun c => c == "BAD") d.content) % 2 + 1))) ∧
      getV d.metadata "_failed_processing" = some (.bool true) :=
  addDocuments_batch_isolation (fun c => c == "BAD") (fun c => c ++ "-id") "boom"
    (fun d => d) [Doc.mk "a" [], Doc.mk "BAD" [], Doc.mk "c" []] 2
    (by decide) (by decide)

end DLTP2
